import Mathlib

/-!
Verification of the synthetic/summary debugger providers
(`lldb_providers.py`, `rust_types.py`) against their specification.

Python strings are modelled as `List Char` (`PyStr`); Python's unbounded
integers as `Nat`/`Int`.  The host debugger API (LLDB `SBValue`/`SBType`)
is modelled by explicit tree datatypes; where the host's behaviour matters
(invalid values, default rendering) the model follows LLDB's documented
semantics, noted at each definition.
-/

set_option maxRecDepth 4000

/-- Python strings, modelled as lists of characters. -/
abbrev PyStr := List Char

/-- Python `s[:-2]` (drop the last two characters; shorter strings become empty). -/
def pyDropLast2 (s : PyStr) : PyStr := s.take (s.length - 2)

/-- Python `s[:-1]`. -/
def pyDropLast1 (s : PyStr) : PyStr := s.take (s.length - 1)

/-- Python `s.startswith(p)`. -/
def pyStartsWith (s p : PyStr) : Bool := s.take p.length == p

/-- Python `s.endswith(p)` (also models the slice test `s[-n:] == p`). -/
def pyEndsWith (s p : PyStr) : Bool := s.drop (s.length - p.length) == p

/-- Python `s.removesuffix(p)`. -/
def pyRemoveSuffix (s p : PyStr) : PyStr :=
  if pyEndsWith s p then s.take (s.length - p.length) else s

/-- Python `s[-1]`, `None`-free: `none` models the `IndexError` on an empty string. -/
def pyLast (s : PyStr) : Option Char := s.getLast?

/-- Python `s.lstrip(c)` for a one-character strip set. -/
def pyLstrip (s : PyStr) (c : Char) : PyStr := s.dropWhile (· == c)

/-- Python `s.rstrip(c)` for a one-character strip set. -/
def pyRstrip (s : PyStr) (c : Char) : PyStr := (s.reverse.dropWhile (· == c)).reverse

/-- Python whitespace test used by `str.strip()` (ASCII whitespace suffices here). -/
def pyIsSpace (c : Char) : Bool := c == ' ' || c == '\t' || c == '\n' || c == '\r'

/-- Python `s.strip()`. -/
def pyStripWs (s : PyStr) : PyStr :=
  ((s.dropWhile pyIsSpace).reverse.dropWhile pyIsSpace).reverse

/-- Python `s.isdigit()` (ASCII digits; the provider only ever sees `[N]` names). -/
def pyIsDigit (s : PyStr) : Bool := !s.isEmpty && s.all Char.isDigit

/-- Python `int(s)` on a digit string. -/
def pyToInt (s : PyStr) : Nat := s.foldl (fun a c => 10 * a + (c.toNat - 48)) 0

/-- Decimal digit character for a digit value (values `≥ 9` clamp to `9`;
they never occur at the call sites, which pass `n % 10`). -/
def digitChar (d : Nat) : Char :=
  match d with
  | 0 => '0' | 1 => '1' | 2 => '2' | 3 => '3' | 4 => '4'
  | 5 => '5' | 6 => '6' | 7 => '7' | 8 => '8' | _ => '9'

/-- Little-endian digit list of a natural number (empty for zero); the fuel
argument keeps the recursion structural, `n` itself is always enough fuel. -/
def toDigitsRevF : Nat → Nat → List Char
  | _, 0 => []
  | 0, _ + 1 => []
  | f + 1, n + 1 => digitChar ((n + 1) % 10) :: toDigitsRevF f ((n + 1) / 10)

/-- Python `str(n)` / `f-string` rendering of a non-negative integer. -/
def decimalRepr (n : Nat) : PyStr :=
  if n = 0 then ['0'] else (toDigitsRevF n n).reverse

theorem digitChar_toNat (d : Nat) (h : d < 10) : (digitChar d).toNat - 48 = d := by
  interval_cases d <;> decide

theorem digitChar_isDigit (d : Nat) (h : d < 10) : (digitChar d).isDigit = true := by
  interval_cases d <;> decide

theorem toDigitsRevF_succ (f n : Nat) (h : n ≠ 0) :
    toDigitsRevF (f + 1) n = digitChar (n % 10) :: toDigitsRevF f (n / 10) := by
  cases n with
  | zero => exact absurd rfl h
  | succ m => rfl

theorem toDigitsRevF_all_digits (f : Nat) : ∀ n, n ≤ f →
    (toDigitsRevF f n).all Char.isDigit = true := by
  induction f with
  | zero =>
    intro n hn
    interval_cases n
    rfl
  | succ f ih =>
    intro n hn
    cases hz : n == 0 with
    | true => rw [show n = 0 from by exact beq_iff_eq.mp hz]; rfl
    | false =>
      have h0 : n ≠ 0 := by simpa using hz
      rw [toDigitsRevF_succ f n h0]
      simp only [List.all_cons, Bool.and_eq_true]
      refine ⟨digitChar_isDigit _ (Nat.mod_lt _ (by decide)), ih (n / 10) ?_⟩
      have := Nat.div_lt_self (Nat.pos_of_ne_zero h0) (by decide : 1 < 10)
      omega

theorem decimalRepr_all_digits (n : Nat) : (decimalRepr n).all Char.isDigit = true := by
  unfold decimalRepr
  split
  · decide
  · rw [List.all_reverse]; exact toDigitsRevF_all_digits n n (Nat.le_refl n)

theorem decimalRepr_ne_nil (n : Nat) : decimalRepr n ≠ [] := by
  unfold decimalRepr
  split
  · simp
  · rename_i h
    cases n with
    | zero => exact absurd rfl h
    | succ m =>
      rw [toDigitsRevF_succ m (m + 1) (Nat.succ_ne_zero m)]
      simp

theorem pyToInt_append_digit (l : PyStr) (c : Char) :
    pyToInt (l ++ [c]) = 10 * pyToInt l + (c.toNat - 48) := by
  simp [pyToInt, List.foldl_append]

theorem pyToInt_toDigitsRevF (f : Nat) : ∀ n, n ≤ f →
    pyToInt (toDigitsRevF f n).reverse = n := by
  induction f with
  | zero =>
    intro n hn
    interval_cases n
    rfl
  | succ f ih =>
    intro n hn
    cases hz : n == 0 with
    | true =>
      rw [show n = 0 from by exact beq_iff_eq.mp hz]
      rfl
    | false =>
      have h0 : n ≠ 0 := by simpa using hz
      rw [toDigitsRevF_succ f n h0, List.reverse_cons, pyToInt_append_digit]
      have hdiv : n / 10 ≤ f := by
        have := Nat.div_lt_self (Nat.pos_of_ne_zero h0) (by decide : 1 < 10)
        omega
      rw [ih (n / 10) hdiv, digitChar_toNat _ (Nat.mod_lt _ (by decide))]
      omega

theorem pyToInt_decimalRepr (n : Nat) : pyToInt (decimalRepr n) = n := by
  unfold decimalRepr
  split
  · simp [pyToInt]; omega
  · exact pyToInt_toDigitsRevF n n (Nat.le_refl n)

theorem isDigit_ne_brackets {c : Char} (h : c.isDigit = true) :
    (c == '[') = false ∧ (c == ']') = false := by
  constructor
  · cases hb : c == '[' with
    | false => rfl
    | true => rw [show c = '[' from by exact (beq_iff_eq.mp hb)] at h; exact absurd h (by decide)
  · cases hb : c == ']' with
    | false => rfl
    | true => rw [show c = ']' from by exact (beq_iff_eq.mp hb)] at h; exact absurd h (by decide)

/-! ### The sequence summary formatter (`sequence_formatter`, lldb_providers.py 408-424)

The loop body appends `f"{child.value}, "` for each child; children are
modelled by their rendered preview strings. -/

/-- Separator appended after each element preview (`", "`). -/
def sepCS : PyStr := [',', ' ']

/-- Loop of `sequence_formatter`: before each element the accumulated output is
checked against the 32-character threshold; on excess the loop breaks with the
`long` flag set. -/
def seqLoop (out : PyStr) : List PyStr → PyStr × Bool
  | [] => (out, false)
  | c :: rest =>
    if 32 < out.length then (out, true)
    else seqLoop (out ++ c ++ sepCS) rest

/-- Embedding of `sequence_formatter(output, valobj, dict)`: `opn` is the initial
`output` (the open token), `cs` the children's preview strings. -/
def sequence_formatter (opn : PyStr) (cs : List PyStr) : PyStr :=
  match seqLoop opn cs with
  | (out, true) => "(len: ".toList ++ decimalRepr cs.length ++ ") ".toList ++ out ++ "...".toList
  | (out, false) => pyDropLast2 out

/-- Embedding of `ArraySummaryProvider` (lldb_providers.py 427-430). -/
def ArraySummaryProvider (cs : List PyStr) : PyStr :=
  sequence_formatter "[".toList cs ++ "]".toList

/-- Embedding of `StdSliceSummaryProvider` (lldb_providers.py 434-437). -/
def StdSliceSummaryProvider (cs : List PyStr) : PyStr :=
  sequence_formatter "&[".toList cs ++ "]".toList

/-- Embedding of `StdVecSummaryProvider` (lldb_providers.py 498-501). -/
def StdVecSummaryProvider (cs : List PyStr) : PyStr :=
  sequence_formatter "vec![".toList cs ++ "]".toList

/-- Embedding of `TupleSummaryProvider` (lldb_providers.py 519-522). -/
def TupleSummaryProvider (cs : List PyStr) : PyStr :=
  sequence_formatter "(".toList cs ++ ")".toList

/-- Accumulated output of the formatter loop after `k` elements: open token plus
the first `k` previews, each followed by the separator. -/
def accStr (opn : PyStr) (cs : List PyStr) (k : Nat) : PyStr :=
  opn ++ ((cs.take k).map (· ++ sepCS)).flatten

/-- Index of the first element at whose loop entry the accumulated output
exceeds the threshold (`none` when the loop runs to completion). -/
def cutIndex (opn : PyStr) (cs : List PyStr) : Option Nat :=
  (List.range cs.length).find? (fun k => 32 < (accStr opn cs k).length)

theorem accStr_zero (opn : PyStr) (cs : List PyStr) : accStr opn cs 0 = opn := by
  simp [accStr]

theorem accStr_succ (opn : PyStr) (c : PyStr) (cs : List PyStr) (k : Nat) :
    accStr opn (c :: cs) (k + 1) = accStr (opn ++ c ++ sepCS) cs k := by
  simp [accStr, List.append_assoc]

theorem cutIndex_def (opn : PyStr) (cs : List PyStr) :
    cutIndex opn cs = (List.range cs.length).find? (fun k => 32 < (accStr opn cs k).length) := rfl

theorem find?_map_succ (p q : Nat → Bool) (n : Nat) (h : ∀ k, q k = p (k + 1)) :
    ((List.range n).map Nat.succ).find? p = ((List.range n).find? q).map Nat.succ := by
  induction (List.range n) with
  | nil => rfl
  | cons a l ih =>
    simp only [List.map_cons, List.find?, h a]
    cases hp : p (a + 1) <;> simp [Nat.succ_eq_add_one, hp, ih]

theorem seqLoop_eq (cs : List PyStr) : ∀ opn : PyStr,
    seqLoop opn cs =
      match cutIndex opn cs with
      | none => (accStr opn cs cs.length, false)
      | some k => (accStr opn cs k, true) := by
  induction cs with
  | nil =>
    intro opn
    simp [seqLoop, cutIndex, accStr]
  | cons c rest ih =>
    intro opn
    rw [seqLoop]
    rw [cutIndex_def]
    simp only [List.length_cons, List.range_succ_eq_map, List.find?]
    cases h : decide (32 < (accStr opn (c :: rest) 0).length) with
    | true =>
      have h32 : 32 < opn.length := by
        have := of_decide_eq_true h; rwa [accStr_zero] at this
      simp [if_pos h32, accStr_zero]
    | false =>
      have h32 : ¬ 32 < opn.length := by
        have := of_decide_eq_false h; rwa [accStr_zero] at this
      simp only [if_neg h32]
      rw [ih (opn ++ c ++ sepCS)]
      rw [cutIndex_def]
      rw [find?_map_succ _ (fun k => decide (32 < (accStr (opn ++ c ++ sepCS) rest k).length))
            _ (fun k => by simp only [accStr_succ])]
      cases hf : (List.range rest.length).find?
          (fun k => decide (32 < (accStr (opn ++ c ++ sepCS) rest k).length)) with
      | none => simp [accStr_succ]
      | some k => simp [accStr_succ]

/-- C10: with zero children the formatter loop never runs, `long` stays false,
and the result is the open token with its last two characters removed; the
array and slice summaries of an empty value are therefore `"]"` and the vec
summary is `"vec]"` — the open token is not preserved in the empty case. -/
theorem C10_empty_sequence_summary :
    (∀ opn : PyStr, sequence_formatter opn [] = pyDropLast2 opn) ∧
    ArraySummaryProvider [] = "]".toList ∧
    StdSliceSummaryProvider [] = "]".toList ∧
    StdVecSummaryProvider [] = "vec]".toList :=
  ⟨fun _ => rfl, by decide, by decide, by decide⟩

/-- C4 counterexample: three previews whose concatenated content is 28 ≤ 32
characters, yet the vec summary is rendered with the element-count annotation
and the ellipsis and the third element is omitted, because the threshold is
measured on the whole accumulated output including the `vec![` open token and
the separators — not on content alone as the claim states. -/
theorem C4_counterexample :
    ("aaaaaaaaaaaaaa".toList.length + "bbbbbbbbbbbbb".toList.length + ['c'].length = 28) ∧
    StdVecSummaryProvider ["aaaaaaaaaaaaaa".toList, "bbbbbbbbbbbbb".toList, ['c']] =
      "(len: 3) vec![aaaaaaaaaaaaaa, bbbbbbbbbbbbb, ...]".toList ∧
    StdVecSummaryProvider ["aaaaaaaaaaaaaa".toList, "bbbbbbbbbbbbb".toList, ['c']] ≠
      "vec![aaaaaaaaaaaaaa, bbbbbbbbbbbbb, c]".toList := by
  refine ⟨by decide, by decide, by decide⟩

/-- C4 (amended): the 32-character threshold is checked before each element
against the accumulated output, which includes the open token and the `", "`
separators. If no such check trips, all elements are rendered and the trailing
separator is trimmed, with no ellipsis; if a check trips (`cutIndex` returns
the first tripping element index), the result is prefixed with the
element-count annotation, contains exactly the previews before the cut, and
is suffixed with an ellipsis — so at least one element is omitted, and no
element preview is ever truncated mid-element. -/
theorem C4_sequence_formatter_threshold (opn : PyStr) (cs : List PyStr) :
    (sequence_formatter opn cs =
      match cutIndex opn cs with
      | none => pyDropLast2 (accStr opn cs cs.length)
      | some k => "(len: ".toList ++ decimalRepr cs.length ++ ") ".toList ++
                    accStr opn cs k ++ "...".toList) ∧
    (∀ k, cutIndex opn cs = some k → k < cs.length) := by
  constructor
  · unfold sequence_formatter
    rw [seqLoop_eq]
    cases h : cutIndex opn cs <;> simp [h]
  · intro k hk
    rw [cutIndex_def] at hk
    exact List.mem_range.mp (List.mem_of_find?_eq_some hk)

/-- Witness for C4 (amended) at a concrete input: a 34-character open token
trips the threshold before the single element, which is therefore omitted. -/
theorem C4_amended_witness :
    cutIndex "0123456789012345678901234567890123".toList [['a']] = some 0 ∧
    (0 : Nat) < [['a']].length :=
  ⟨by decide, (C4_sequence_formatter_threshold "0123456789012345678901234567890123".toList
      [['a']]).2 0 (by decide)⟩

/-! ### The numeric type-name resolver (`rust_types.py` 67-160)

`TypeDesc` models the data `type_name_from_type` reads off an `lldb.SBType`:
its name, its basic-type tag (`SBType.GetBasicType`, one of the host's
`lldb.eBasicType*` enumeration values `0..33`) and its byte size. -/

structure TypeDesc where
  name : PyStr
  basicType : Nat
  byteSize : Nat
deriving DecidableEq

/-- Value of the host constant `lldb.eBasicTypeHalf` (lldb-enumerations.h). -/
def eBasicTypeHalf : Nat := 22

/-- Value of the host constant `lldb.eBasicTypeLongDouble` (lldb-enumerations.h). -/
def eBasicTypeLongDouble : Nat := 25

/-- Number of values of the host `lldb.BasicType` enumeration:
`eBasicTypeInvalid = 0` through `eBasicTypeOther = 33`. -/
def hostBasicTypeCount : Nat := 34

/-- Embedding of `NUM_TYPE_MAP` (rust_types.py 67-102): `(numeric, signed)` per
basic-type tag, in the source's order. -/
def NUM_TYPE_MAP : List (Bool × Bool) :=
  [(false, false), (false, false), (true, false), (true, true), (true, false),
   (true, false), (true, true), (true, false), (true, false), (true, false),
   (true, false), (true, true), (true, false), (true, true), (true, false),
   (true, true), (true, false), (true, true), (true, false), (true, true),
   (true, false), (false, false), (true, true), (true, true), (true, true),
   (true, true), (true, true), (true, true), (true, true), (false, false),
   (false, false), (false, false), (false, false), (false, false)]

/-- Table lookup `NUM_TYPE_MAP[basic_type]`, modelled with a default that is
never reached because `GetBasicType` always returns an enumeration value `< 34`. -/
def numTypeEntry (bt : Nat) : Bool × Bool := NUM_TYPE_MAP.getD bt (false, false)

/-- Embedding of `type_name_from_type` (rust_types.py 133-160). -/
def type_name_from_type (t : TypeDesc) : PyStr :=
  if (numTypeEntry t.basicType).1 = false then t.name
  else if eBasicTypeHalf ≤ t.basicType ∧ t.basicType ≤ eBasicTypeLongDouble then
    'f' :: decimalRepr (t.byteSize * 8)
  else if (numTypeEntry t.basicType).2 then
    'i' :: decimalRepr (t.byteSize * 8)
  else
    'u' :: decimalRepr (t.byteSize * 8)

/-- C2: the signedness table has one row per host basic-type tag; every tag it
classifies as numeric resolves to a name of the shape `[iuf]` followed by a
non-empty digit string whose value is exactly `8 * byteSize`; and every tag in
the half-through-long-double range resolves to the floating-point form `f<w>`. -/
theorem C2_numeric_type_name_resolution :
    NUM_TYPE_MAP.length = hostBasicTypeCount ∧
    (∀ t : TypeDesc, t.basicType < NUM_TYPE_MAP.length →
      (numTypeEntry t.basicType).1 = true →
      ∃ c w, type_name_from_type t = c :: decimalRepr w ∧
        (c = 'i' ∨ c = 'u' ∨ c = 'f') ∧ w = 8 * t.byteSize ∧
        (decimalRepr w).all Char.isDigit = true ∧ decimalRepr w ≠ []) ∧
    (∀ t : TypeDesc, eBasicTypeHalf ≤ t.basicType → t.basicType ≤ eBasicTypeLongDouble →
      type_name_from_type t = 'f' :: decimalRepr (8 * t.byteSize)) := by
  refine ⟨rfl, ?_, ?_⟩
  · rintro ⟨name, bt, size⟩ hlt hnum
    simp only [TypeDesc.basicType] at hnum
    by_cases hf : eBasicTypeHalf ≤ bt ∧ bt ≤ eBasicTypeLongDouble
    · refine ⟨'f', size * 8, ?_, Or.inr (Or.inr rfl), Nat.mul_comm size 8,
        decimalRepr_all_digits _, decimalRepr_ne_nil _⟩
      simp [type_name_from_type, hnum, hf]
    · cases hs : (numTypeEntry bt).2 with
      | false =>
        refine ⟨'u', size * 8, ?_, Or.inr (Or.inl rfl), Nat.mul_comm size 8,
          decimalRepr_all_digits _, decimalRepr_ne_nil _⟩
        simp [type_name_from_type, hnum, hf, hs]
      | true =>
        refine ⟨'i', size * 8, ?_, Or.inl rfl, Nat.mul_comm size 8,
          decimalRepr_all_digits _, decimalRepr_ne_nil _⟩
        simp [type_name_from_type, hnum, hf, hs]
  · rintro ⟨name, bt, size⟩ h1 h2
    have h1n : 22 ≤ bt := h1
    have h2n : bt ≤ 25 := h2
    have hnum : (numTypeEntry bt).1 = true := by
      interval_cases bt <;> rfl
    simp [type_name_from_type, hnum, h1, h2, Nat.mul_comm]

/-- Witness for C2 at the host tag `eBasicTypeInt = 13` with byte size 4:
the resolver yields `i32`. -/
theorem C2_numeric_witness :
    (13 < NUM_TYPE_MAP.length ∧
      (numTypeEntry 13).1 = true) ∧
    (∃ c w, type_name_from_type ⟨"int".toList, 13, 4⟩ = c :: decimalRepr w ∧
      (c = 'i' ∨ c = 'u' ∨ c = 'f') ∧ w = 8 * (⟨"int".toList, 13, 4⟩ : TypeDesc).byteSize ∧
      (decimalRepr w).all Char.isDigit = true ∧ decimalRepr w ≠ []) ∧
    type_name_from_type ⟨"int".toList, 13, 4⟩ = "i32".toList :=
  ⟨⟨by decide, by decide⟩,
    C2_numeric_type_name_resolution.2.1 ⟨"int".toList, 13, 4⟩ (by decide) (by decide),
    by decide⟩

/-! ### Model of LLDB `SBValue` trees

An `SBV` carries what the providers read off a value: its name, its type's
name, its one-line value rendering (`SBValue.value`), its unsigned-integer
reading, and its children.  `hasDiscrExact` models whether the value's type
has a valid `DISCR_EXACT` static field, and `enumNames` the member names of
the type of the type's `NAME` static field (`none` models any failure along
that chain, which the source converts to an empty name via `try/except`).

`Option SBV` models possibly-invalid values: LLDB returns an *invalid*
`SBValue` (not an exception) from a failed child lookup, on which
`GetValueAsUnsigned()` is 0 and `GetNumChildren()` is 0. -/

inductive SBV : Type where
  | mk (name : PyStr) (typeName : PyStr) (valueStr : PyStr) (uintVal : Nat)
       (hasDiscrExact : Bool) (enumNames : Option (List PyStr)) (children : List SBV)

def sbName : SBV → PyStr
  | .mk n _ _ _ _ _ _ => n

def sbTypeName : SBV → PyStr
  | .mk _ t _ _ _ _ _ => t

def sbValueStr : SBV → PyStr
  | .mk _ _ v _ _ _ _ => v

def sbUint : SBV → Nat
  | .mk _ _ _ u _ _ _ => u

def sbDiscrExact : SBV → Bool
  | .mk _ _ _ _ d _ _ => d

def sbEnumNames : SBV → Option (List PyStr)
  | .mk _ _ _ _ _ e _ => e

def sbChildren : SBV → List SBV
  | .mk _ _ _ _ _ _ cs => cs

/-- `SBValue.GetChildMemberWithName`: first child with the given name, or an
invalid value (`none`) when absent. -/
def getChildMemberWithName (v : SBV) (n : PyStr) : Option SBV :=
  (sbChildren v).find? (fun c => sbName c == n)

/-- Member lookup on a possibly-invalid value (lookups on invalid values stay
invalid). -/
def optMember (o : Option SBV) (n : PyStr) : Option SBV :=
  o.bind (fun v => getChildMemberWithName v n)

/-- `GetValueAsUnsigned` (0 on an invalid value). -/
def optUint (o : Option SBV) : Nat :=
  match o with
  | some v => sbUint v
  | none => 0

/-- `GetNumChildren` (0 on an invalid value). -/
def optNumChildren (o : Option SBV) : Nat :=
  match o with
  | some v => (sbChildren v).length
  | none => 0

/-- `GetChildAtIndex` (invalid on an invalid value or an out-of-range index). -/
def optChildAt (o : Option SBV) (i : Nat) : Option SBV :=
  o.bind (fun v => (sbChildren v).get? i)

/-! ### Python `str.partition` and the Vec / slice synthetic providers -/

/-- First occurrence split: `some (before, after)` around the first occurrence
of `sep`, `none` when `sep` does not occur (callers never pass an empty `sep`). -/
def pySplitOnce (l sep : PyStr) : Option (PyStr × PyStr) :=
  match l with
  | [] => none
  | c :: rest =>
    if pyStartsWith (c :: rest) sep then some ([], (c :: rest).drop sep.length)
    else
      match pySplitOnce rest sep with
      | some (pre, post) => some (c :: pre, post)
      | none => none

/-- Python `s.partition(sep)`. -/
def pyPartition (l sep : PyStr) : PyStr × PyStr × PyStr :=
  match pySplitOnce l sep with
  | some (pre, post) => (pre, sep, post)
  | none => (l, [], [])

/-- Element-name recovery of `MSVCStdVecSyntheticProvider.update`
(lldb_providers.py 459-461): text between the first `<` and the first `,`
of the container's own generic type name. -/
def vecElementName (tn : PyStr) : PyStr :=
  (pyPartition (pyPartition tn "<".toList).2.2 ",".toList).1

/-- Wrapper-field chain `buf → inner → ptr → pointer → pointer` locating the
data pointer (lldb_providers.py 447-453). -/
def vecDataPtrChain (valobj : SBV) : Option SBV :=
  optMember (optMember (optMember (optMember
    (getChildMemberWithName valobj "buf".toList) "inner".toList)
      "ptr".toList) "pointer".toList) "pointer".toList

/-- State computed by `MSVCStdVecSyntheticProvider.update` (445-468). -/
structure VecState where
  length : Nat
  data_ptr : Option SBV
  element_type : Option TypeDesc
  element_size : Nat

/-- Embedding of `MSVCStdVecSyntheticProvider.update`; `findFirstType` models
`SBTarget.FindFirstType` (an invalid result has byte size 0). -/
def MSVCStdVec_update (valobj : SBV) (findFirstType : PyStr → Option TypeDesc) : VecState :=
  ⟨optUint (getChildMemberWithName valobj "len".toList),
   vecDataPtrChain valobj,
   findFirstType (vecElementName (sbTypeName valobj)),
   match findFirstType (vecElementName (sbTypeName valobj)) with
   | some t => t.byteSize
   | none => 0⟩

/-- Display name `f"[{index}]"` given to a constructed child. -/
def vecChildName (i : Nat) : PyStr := '[' :: (decimalRepr i ++ [']'])

/-- Result of `SBValue.CreateValueFromAddress(name, addr, type)`. -/
structure CreatedVal where
  name : PyStr
  address : Int
  type : Option TypeDesc

/-- Embedding of `MSVCStdVecSyntheticProvider.get_child_at_index` (480-489). -/
def MSVCStdVec_get_child_at_index (st : VecState) (index : Int) : Option CreatedVal :=
  if 0 ≤ index ∧ index < (st.length : Int) then
    some ⟨vecChildName index.toNat,
          (optUint st.data_ptr : Int) + index * (st.element_size : Int),
          st.element_type⟩
  else none

/-- Embedding of `MSVCStdVecSyntheticProvider.get_child_index` (473-478). -/
def MSVCStdVec_get_child_index (name : PyStr) : Int :=
  if pyIsDigit (pyRstrip (pyLstrip name '[') ']') then
    (pyToInt (pyRstrip (pyLstrip name '[') ']') : Int)
  else -1

/-- Embedding of `MSVCStdVecSyntheticProvider.get_type_name` (494-495); the
`name` of an invalid `SBType` is Python `None`, rendered as `"None"`. -/
def MSVCStdVec_get_type_name (st : VecState) : PyStr :=
  "Vec<".toList ++ (match st.element_type with
                    | some t => t.name
                    | none => "None".toList) ++ ">".toList

/-- State used by `StdSliceSyntheticProvider` (computed by its `update`,
lldb_providers.py 362-368). -/
structure SliceState where
  length : Nat
  data_ptr : Option SBV
  element_type : Option TypeDesc
  element_size : Nat

/-- Embedding of `StdSliceSyntheticProvider.get_child_at_index` (380-389). -/
def StdSlice_get_child_at_index (st : SliceState) (index : Int) : Option CreatedVal :=
  if 0 ≤ index ∧ index < (st.length : Int) then
    some ⟨vecChildName index.toNat,
          (optUint st.data_ptr : Int) + index * (st.element_size : Int),
          st.element_type⟩
  else none

/-- Embedding of `StdSliceSyntheticProvider.get_child_index` (373-378),
textually identical to the vec provider's. -/
def StdSlice_get_child_index (name : PyStr) : Int :=
  if pyIsDigit (pyRstrip (pyLstrip name '[') ']') then
    (pyToInt (pyRstrip (pyLstrip name '[') ']') : Int)
  else -1

theorem pyLstrip_childName (i : Nat) :
    pyLstrip (vecChildName i) '[' = decimalRepr i ++ [']'] := by
  unfold vecChildName pyLstrip
  rw [List.dropWhile_cons]
  simp only [beq_self_eq_true, if_true]
  cases hd : decimalRepr i with
  | nil => exact absurd hd (decimalRepr_ne_nil i)
  | cons d ds =>
    have hdig : d.isDigit = true := by
      have := decimalRepr_all_digits i
      rw [hd] at this
      exact (List.all_cons .. ▸ this |> Bool.and_eq_true_iff.mp).1
    rw [List.cons_append, List.dropWhile_cons, (isDigit_ne_brackets hdig).1]
    simp

theorem pyRstrip_digits_bracket (i : Nat) :
    pyRstrip (decimalRepr i ++ [']']) ']' = decimalRepr i := by
  unfold pyRstrip
  rw [List.reverse_append]
  simp only [List.reverse_cons, List.reverse_nil, List.nil_append, List.singleton_append]
  rw [List.dropWhile_cons]
  simp only [beq_self_eq_true, if_true]
  cases hrev : (decimalRepr i).reverse with
  | nil =>
    exact absurd (by simpa using hrev) (decimalRepr_ne_nil i)
  | cons e es =>
    have hmem : e ∈ decimalRepr i := by
      rw [← List.mem_reverse, hrev]; exact List.mem_cons_self e es
    have hdig : e.isDigit = true :=
      List.all_eq_true.mp (decimalRepr_all_digits i) e hmem
    rw [List.dropWhile_cons, (isDigit_ne_brackets hdig).2]
    simp only [Bool.false_eq_true, if_false]
    rw [← hrev, List.reverse_reverse]

theorem pyIsDigit_decimalRepr (i : Nat) : pyIsDigit (decimalRepr i) = true := by
  unfold pyIsDigit
  rw [decimalRepr_all_digits i]
  cases hd : decimalRepr i with
  | nil => exact absurd hd (decimalRepr_ne_nil i)
  | cons d ds => simp

theorem childIndex_roundtrip (i : Nat) :
    MSVCStdVec_get_child_index (vecChildName i) = (i : Int) := by
  unfold MSVCStdVec_get_child_index
  rw [pyLstrip_childName, pyRstrip_digits_bracket, pyIsDigit_decimalRepr,
      pyToInt_decimalRepr]
  rfl

theorem childIndex_roundtrip_slice (i : Nat) :
    StdSlice_get_child_index (vecChildName i) = (i : Int) := by
  unfold StdSlice_get_child_index
  rw [pyLstrip_childName, pyRstrip_digits_bracket, pyIsDigit_decimalRepr,
      pyToInt_decimalRepr]
  rfl

/-- C8: for a valid index `i`, the vec and slice decoders name the constructed
child `[i]`, and feeding that display name back through `get_child_index`
recovers exactly `i`. -/
theorem C8_child_index_roundtrip :
    (∀ (st : VecState) (i : Nat), i < st.length →
      ∃ v, MSVCStdVec_get_child_at_index st (i : Int) = some v ∧
        v.name = vecChildName i ∧
        MSVCStdVec_get_child_index v.name = (i : Int)) ∧
    (∀ (st : SliceState) (i : Nat), i < st.length →
      ∃ v, StdSlice_get_child_at_index st (i : Int) = some v ∧
        v.name = vecChildName i ∧
        StdSlice_get_child_index v.name = (i : Int)) := by
  constructor
  · intro st i hi
    refine ⟨⟨vecChildName i, (optUint st.data_ptr : Int) + (i : Int) * (st.element_size : Int),
      st.element_type⟩, ?_, rfl, childIndex_roundtrip i⟩
    unfold MSVCStdVec_get_child_at_index
    rw [if_pos ⟨Int.ofNat_nonneg i, by exact_mod_cast hi⟩]
    simp [Int.toNat_natCast]
  · intro st i hi
    refine ⟨⟨vecChildName i, (optUint st.data_ptr : Int) + (i : Int) * (st.element_size : Int),
      st.element_type⟩, ?_, rfl, childIndex_roundtrip_slice i⟩
    unfold StdSlice_get_child_at_index
    rw [if_pos ⟨Int.ofNat_nonneg i, by exact_mod_cast hi⟩]
    simp [Int.toNat_natCast]

/-- Witness for C8 on concrete decoder states of length 2 at index 1. -/
theorem C8_roundtrip_witness :
    (1 < (⟨2, none, none, 4⟩ : VecState).length ∧
      ∃ v, MSVCStdVec_get_child_at_index ⟨2, none, none, 4⟩ ((1 : Nat) : Int) = some v ∧
        v.name = vecChildName 1 ∧
        MSVCStdVec_get_child_index v.name = ((1 : Nat) : Int)) ∧
    (1 < (⟨2, none, none, 4⟩ : SliceState).length ∧
      ∃ v, StdSlice_get_child_at_index ⟨2, none, none, 4⟩ ((1 : Nat) : Int) = some v ∧
        v.name = vecChildName 1 ∧
        StdSlice_get_child_index v.name = ((1 : Nat) : Int)) :=
  ⟨⟨by decide, C8_child_index_roundtrip.1 ⟨2, none, none, 4⟩ 1 (by decide)⟩,
   ⟨by decide, C8_child_index_roundtrip.2 ⟨2, none, none, 4⟩ 1 (by decide)⟩⟩

/-- C3: after `update`, a vec decoder of length `N` answers `get_child_at_index i`
for `0 ≤ i < N` with a value named `[i]` constructed at
`base + i * element_size` — the base read through the
`buf → inner → ptr → pointer → pointer` chain and the element type resolved by
name lookup — and answers `None` for `i = N`, `i = -1`, and every other index
outside `[0, N)`. -/
theorem C3_vec_get_child_at_index_bounds (valobj : SBV)
    (findFirstType : PyStr → Option TypeDesc) (i : Int) :
    (0 ≤ i → i < ((MSVCStdVec_update valobj findFirstType).length : Int) →
      MSVCStdVec_get_child_at_index (MSVCStdVec_update valobj findFirstType) i =
        some ⟨vecChildName i.toNat,
              (optUint (vecDataPtrChain valobj) : Int) +
                i * ((MSVCStdVec_update valobj findFirstType).element_size : Int),
              findFirstType (vecElementName (sbTypeName valobj))⟩) ∧
    MSVCStdVec_get_child_at_index (MSVCStdVec_update valobj findFirstType)
      ((MSVCStdVec_update valobj findFirstType).length : Int) = none ∧
    MSVCStdVec_get_child_at_index (MSVCStdVec_update valobj findFirstType) (-1) = none ∧
    (∀ j : Int, j < 0 ∨ ((MSVCStdVec_update valobj findFirstType).length : Int) ≤ j →
      MSVCStdVec_get_child_at_index (MSVCStdVec_update valobj findFirstType) j = none) := by
  refine ⟨?_, ?_, ?_, ?_⟩
  · intro h0 hlt
    unfold MSVCStdVec_get_child_at_index
    rw [if_pos ⟨h0, hlt⟩]
    rfl
  · unfold MSVCStdVec_get_child_at_index
    rw [if_neg]
    omega
  · unfold MSVCStdVec_get_child_at_index
    rw [if_neg]
    omega
  · intro j hj
    unfold MSVCStdVec_get_child_at_index
    rw [if_neg]
    omega

/-- Witness for C3 on a concrete two-element vec of `i32`. -/
theorem C3_vec_witness :
    MSVCStdVec_get_child_at_index
      (MSVCStdVec_update
        (.mk "v".toList "Vec<i32,alloc::alloc::Global>".toList [] 0 true none
          [.mk "len".toList "usize".toList [] 2 true none []])
        (fun n => if n == "i32".toList then some ⟨"i32".toList, 13, 4⟩ else none))
      ((1 : Nat) : Int) =
      some ⟨vecChildName 1, 4, some ⟨"i32".toList, 13, 4⟩⟩ := by
  have h := (C3_vec_get_child_at_index_bounds
    (.mk "v".toList "Vec<i32,alloc::alloc::Global>".toList [] 0 true none
      [.mk "len".toList "usize".toList [] 2 true none []])
    (fun n => if n == "i32".toList then some ⟨"i32".toList, 13, 4⟩ else none)
    ((1 : Nat) : Int)).1 (by decide) (by decide)
  rw [h]
  rfl

/-- Refinement reference for C9, written from the spec's words: the segment of
the generic argument text before the first comma at angle-bracket nesting
depth zero ("the first top-level `,`"). -/
def spec_firstTopLevelSegment (d : Nat) : PyStr → Option PyStr
  | [] => none
  | c :: rest =>
    if c == ',' && d == 0 then some []
    else if c == '<' then (spec_firstTopLevelSegment (d + 1) rest).map (c :: ·)
    else if c == '>' then (spec_firstTopLevelSegment (d - 1) rest).map (c :: ·)
    else (spec_firstTopLevelSegment d rest).map (c :: ·)

/-- Refinement reference for C9, written from the spec's words: the text
between the first `<` and the first top-level `,` of the type name. -/
def spec_vecElementName (tn : PyStr) : Option PyStr :=
  (pySplitOnce tn "<".toList).bind (fun p => spec_firstTopLevelSegment 0 p.2)

/-- C9 counterexample: for a vec of pairs the generic type name has a nested
comma before the top-level one; the code splits at the first comma anywhere
and recovers the truncated name `tuple$<u8`, not the spec's
between-first-`<`-and-first-top-level-`,` segment `tuple$<u8,u16>`. -/
theorem C9_counterexample :
    vecElementName "alloc::vec::Vec<tuple$<u8,u16>,alloc::alloc::Global>".toList =
      "tuple$<u8".toList ∧
    spec_vecElementName "alloc::vec::Vec<tuple$<u8,u16>,alloc::alloc::Global>".toList =
      some "tuple$<u8,u16>".toList ∧
    vecElementName "alloc::vec::Vec<tuple$<u8,u16>,alloc::alloc::Global>".toList ≠
      "tuple$<u8,u16>".toList := by
  refine ⟨by decide, by decide, by decide⟩

theorem pySplitOnce_single_char (c : Char) (post : PyStr) : ∀ pre : PyStr, c ∉ pre →
    pySplitOnce (pre ++ c :: post) [c] = some (pre, post) := by
  intro pre
  induction pre with
  | nil =>
    intro _
    unfold pySplitOnce
    simp [pyStartsWith]
  | cons a pre ih =>
    intro h
    have hne : (a == c) = false := by
      simp only [List.mem_cons, not_or] at h
      simpa [beq_iff_eq] using (Ne.symm h.1)
    rw [List.cons_append]
    unfold pySplitOnce
    rw [show pyStartsWith (a :: (pre ++ c :: post)) [c] = false from by
      simp [pyStartsWith, hne]]
    simp only [Bool.false_eq_true, if_false]
    rw [ih (by simp only [List.mem_cons, not_or] at h; exact h.2)]

theorem spec_firstTopLevelSegment_flat (rest : PyStr) : ∀ e : PyStr,
    '<' ∉ e → '>' ∉ e → ',' ∉ e →
    spec_firstTopLevelSegment 0 (e ++ ',' :: rest) = some e := by
  intro e
  induction e with
  | nil =>
    intro _ _ _
    unfold spec_firstTopLevelSegment
    simp
  | cons a e ih =>
    intro h1 h2 h3
    simp only [List.mem_cons, not_or] at h1 h2 h3
    have ha1 : (a == '<') = false := by simpa [beq_iff_eq] using (Ne.symm h1.1)
    have ha2 : (a == '>') = false := by simpa [beq_iff_eq] using (Ne.symm h2.1)
    have ha3 : (a == ',') = false := by simpa [beq_iff_eq] using (Ne.symm h3.1)
    rw [List.cons_append]
    unfold spec_firstTopLevelSegment
    rw [ha1, ha2, ha3]
    simp only [Bool.false_and, Bool.false_eq_true, if_false]
    rw [ih h1.2 h2.2 h3.2]
    rfl

/-- C9 (amended): `update` recovers the element name by splitting the
container's generic type name between the first `<` and the first `,`
thereafter — regardless of nesting — and looks it up in the type system; the
looked-up type is used for child construction and the displayed type is
`Vec<element>`.  When that first comma is top-level (no `<`, `>` or `,` occurs
in the element segment) this coincides with the spec's first-top-level-comma
split. -/
theorem C9_element_type_recovery :
    (∀ (valobj : SBV) (findFirstType : PyStr → Option TypeDesc),
      (MSVCStdVec_update valobj findFirstType).element_type =
        findFirstType (vecElementName (sbTypeName valobj)) ∧
      (∀ t, findFirstType (vecElementName (sbTypeName valobj)) = some t →
        MSVCStdVec_get_type_name (MSVCStdVec_update valobj findFirstType) =
          "Vec<".toList ++ t.name ++ ">".toList)) ∧
    (∀ pre e rest : PyStr, '<' ∉ pre → '<' ∉ e → '>' ∉ e → ',' ∉ e →
      vecElementName (pre ++ ['<'] ++ e ++ [','] ++ rest) = e ∧
      spec_vecElementName (pre ++ ['<'] ++ e ++ [','] ++ rest) = some e) := by
  constructor
  · intro valobj findFirstType
    refine ⟨rfl, ?_⟩
    intro t ht
    unfold MSVCStdVec_get_type_name MSVCStdVec_update
    simp only [ht]
  · intro pre e rest h0 h1 h2 h3
    have hsplit : pySplitOnce (pre ++ ['<'] ++ e ++ [','] ++ rest) "<".toList
        = some (pre, e ++ ',' :: rest) := by
      rw [show "<".toList = ['<'] from rfl]
      rw [show pre ++ ['<'] ++ e ++ [','] ++ rest = pre ++ '<' :: (e ++ ',' :: rest) from by
        simp]
      exact pySplitOnce_single_char '<' (e ++ ',' :: rest) pre h0
    constructor
    · unfold vecElementName
      rw [show pyPartition (pre ++ ['<'] ++ e ++ [','] ++ rest) "<".toList
          = (pre, "<".toList, e ++ ',' :: rest) from by
        unfold pyPartition; rw [hsplit]]
      simp only
      unfold pyPartition
      rw [show ",".toList = [','] from rfl,
          pySplitOnce_single_char ',' rest e h3]
    · unfold spec_vecElementName
      rw [hsplit]
      exact spec_firstTopLevelSegment_flat rest e h1 h2 h3

/-- Witness for C9 (amended) at `Vec<i32,alloc::alloc::Global>`: both the code
split and the spec split recover `i32`, and the display type is `Vec<i32>`. -/
theorem C9_element_type_witness :
    ((MSVCStdVec_update
        (.mk "v".toList "Vec<i32,alloc::alloc::Global>".toList [] 0 true none [])
        (fun n => if n == "i32".toList then some ⟨"i32".toList, 13, 4⟩ else none)).element_type =
      (fun n => if n == "i32".toList then some ⟨"i32".toList, 13, 4⟩ else none)
        (vecElementName (sbTypeName
          (.mk "v".toList "Vec<i32,alloc::alloc::Global>".toList [] 0 true none []))) ∧
      MSVCStdVec_get_type_name (MSVCStdVec_update
        (.mk "v".toList "Vec<i32,alloc::alloc::Global>".toList [] 0 true none [])
        (fun n => if n == "i32".toList then some ⟨"i32".toList, 13, 4⟩ else none)) =
        "Vec<".toList ++ "i32".toList ++ ">".toList) ∧
    vecElementName ("Vec".toList ++ ['<'] ++ "i32".toList ++ [','] ++
        "alloc::alloc::Global>".toList) = "i32".toList ∧
    spec_vecElementName ("Vec".toList ++ ['<'] ++ "i32".toList ++ [','] ++
        "alloc::alloc::Global>".toList) = some "i32".toList := by
  have h1 := (C9_element_type_recovery.1
    (.mk "v".toList "Vec<i32,alloc::alloc::Global>".toList [] 0 true none [])
    (fun n => if n == "i32".toList then some ⟨"i32".toList, 13, 4⟩ else none))
  have h2 := C9_element_type_recovery.2 "Vec".toList "i32".toList
    "alloc::alloc::Global>".toList (by decide) (by decide) (by decide) (by decide)
  exact ⟨⟨h1.1, h1.2 ⟨"i32".toList, 13, 4⟩ (by decide)⟩, h2.1, h2.2⟩

/-! ### The pointer-chain type-name decoder (`RefSyntheticProvider.get_type_name`, 243-305)

A declared type is a chain of pointer (`CType.ptr`) and reference
(`CType.ref`) layers over a non-pointer target (`CType.base`); the loop
condition `is_pointer or is_reference` distinguishes exactly these node kinds,
and each node stores the raw name `SBType.GetName` reports for it.  The base
stores the descriptor of its `GetUnqualifiedType`. -/

inductive CType : Type where
  | base (name : PyStr) (unqualified : TypeDesc)
  | ptr (name : PyStr) (pointee : CType)
  | ref (name : PyStr) (pointee : CType)

def ctName : CType → PyStr
  | .base n _ => n
  | .ptr n _ => n
  | .ref n _ => n

/-- `is_pointer or is_reference` of a layer. -/
def ctIsPtrOrRef : CType → Bool
  | .base _ _ => false
  | .ptr _ _ => true
  | .ref _ _ => true

/-- Number of pointer/reference layers above the target. -/
def ctDepth : CType → Nat
  | .base _ _ => 0
  | .ptr _ p => ctDepth p + 1
  | .ref _ p => ctDepth p + 1

/-- Resolved name of the innermost non-pointer target. -/
def ctResolvedTarget : CType → PyStr
  | .base _ u => type_name_from_type u
  | .ptr _ p => ctResolvedTarget p
  | .ref _ p => ctResolvedTarget p

/-- Per-layer emitted prefix (lldb_providers.py 275-299): const-ness is read
off the *pointee* layer's name — a trailing `const` when the pointee is itself
a pointer/reference, a leading `const ` otherwise. -/
def layerToken (is_ref : Bool) (ptee : CType) : PyStr :=
  if ctIsPtrOrRef ptee then
    if pyEndsWith (ctName ptee) "const".toList then
      (if is_ref then "&".toList else "*const ".toList)
    else
      (if is_ref then "&mut ".toList else "*mut ".toList)
  else
    if pyStartsWith (ctName ptee) "const ".toList then
      (if is_ref then "&".toList else "*const ".toList)
    else
      (if is_ref then "&mut ".toList else "*mut ".toList)

/-- Loop of `RefSyntheticProvider.get_type_name` (257-304): `w` is the
`was_r_ref` flag carried from the previous layer; each layer strips its own
trailing `const`, classifies reference-vs-pointer from the flag or a trailing
`&`, hands `ptr_name[-2:] == "&&"` to the next layer, and emits one prefix;
the target contributes the final resolved name.  `none` models the
`IndexError` of `ptr_name[-1]` on an empty stripped name. -/
def refLoopParts (w : Bool) : CType → Option (List PyStr)
  | .base _ u => some [type_name_from_type u]
  | .ptr n p | .ref n p =>
    match pyLast (pyRemoveSuffix n "const".toList) with
    | none => none
    | some lastc =>
      (refLoopParts (pyEndsWith (pyRemoveSuffix n "const".toList) "&&".toList) p).map
        (layerToken (w || (lastc == '&')) p :: ·)

/-- Embedding of `RefSyntheticProvider.get_type_name`: the concatenation of
the per-layer prefixes followed by the resolved target name. -/
def RefSynthetic_get_type_name (t : CType) : Option PyStr :=
  (refLoopParts false t).map List.flatten

/-- The four prefix tokens a layer can emit. -/
def prefixTokens : List PyStr :=
  ["&".toList, "&mut ".toList, "*const ".toList, "*mut ".toList]

theorem layerToken_mem (b : Bool) (p : CType) : layerToken b p ∈ prefixTokens := by
  unfold layerToken prefixTokens
  split_ifs <;> simp

theorem layerToken_true (p : CType) :
    layerToken true p = "&".toList ∨ layerToken true p = "&mut ".toList := by
  unfold layerToken
  split_ifs <;> simp_all

theorem refLoopParts_shape (t : CType) : ∀ (w : Bool) (parts : List PyStr),
    refLoopParts w t = some parts →
    parts.length = ctDepth t + 1 ∧ parts.getLast? = some (ctResolvedTarget t) ∧
    ∀ p ∈ parts.dropLast, p ∈ prefixTokens := by
  induction t with
  | base n u =>
    intro w parts h
    simp only [refLoopParts, Option.some_inj] at h
    subst h
    refine ⟨rfl, rfl, ?_⟩
    simp [ctResolvedTarget]
  | ptr n p ih =>
    intro w parts h
    simp only [refLoopParts] at h
    cases hl : pyLast (pyRemoveSuffix n "const".toList) with
    | none => rw [hl] at h; exact absurd h (by simp)
    | some lastc =>
      rw [hl] at h
      cases hrec : refLoopParts (pyEndsWith (pyRemoveSuffix n "const".toList) "&&".toList) p with
      | none => rw [hrec] at h; exact absurd h (by simp)
      | some parts' =>
        rw [hrec] at h
        simp only [Option.map_some', Option.some_inj] at h
        obtain ⟨hlen, hlast, hdrop⟩ := ih _ _ hrec
        cases parts' with
        | nil => exact absurd hlen (by simp)
        | cons q qs =>
          subst h
          refine ⟨by simpa [ctDepth] using hlen, ?_, ?_⟩
          · rw [List.getLast?_cons_cons]
            exact hlast
          · intro x hx
            rw [show (layerToken (w || (lastc == '&')) p :: q :: qs).dropLast
                = layerToken (w || (lastc == '&')) p :: (q :: qs).dropLast from rfl] at hx
            rcases List.mem_cons.mp hx with h1 | h2
            · rw [h1]; exact layerToken_mem _ _
            · exact hdrop x h2
  | ref n p ih =>
    intro w parts h
    simp only [refLoopParts] at h
    cases hl : pyLast (pyRemoveSuffix n "const".toList) with
    | none => rw [hl] at h; exact absurd h (by simp)
    | some lastc =>
      rw [hl] at h
      cases hrec : refLoopParts (pyEndsWith (pyRemoveSuffix n "const".toList) "&&".toList) p with
      | none => rw [hrec] at h; exact absurd h (by simp)
      | some parts' =>
        rw [hrec] at h
        simp only [Option.map_some', Option.some_inj] at h
        obtain ⟨hlen, hlast, hdrop⟩ := ih _ _ hrec
        cases parts' with
        | nil => exact absurd hlen (by simp)
        | cons q qs =>
          subst h
          refine ⟨by simpa [ctDepth] using hlen, ?_, ?_⟩
          · rw [List.getLast?_cons_cons]
            exact hlast
          · intro x hx
            rw [show (layerToken (w || (lastc == '&')) p :: q :: qs).dropLast
                = layerToken (w || (lastc == '&')) p :: (q :: qs).dropLast from rfl] at hx
            rcases List.mem_cons.mp hx with h1 | h2
            · rw [h1]; exact layerToken_mem _ _
            · exact hdrop x h2

theorem pyEndsWith_append (n s : PyStr) : pyEndsWith (n ++ s) s = true := by
  unfold pyEndsWith
  rw [List.length_append, Nat.add_sub_cancel, List.drop_left]
  simp

theorem pyRemoveSuffix_append (n s : PyStr) : pyRemoveSuffix (n ++ s) s = n := by
  unfold pyRemoveSuffix
  rw [pyEndsWith_append]
  simp only [if_true]
  rw [List.length_append, Nat.add_sub_cancel, List.take_left]

theorem pyRemoveSuffix_of_not_suffix (n s : PyStr) (h : pyEndsWith n s = false) :
    pyRemoveSuffix n s = n := by
  unfold pyRemoveSuffix
  rw [h]
  simp

/-- C6: the pointer-chain name decoder emits exactly one prefix per
pointer/reference layer, outermost first, followed by the resolved target
name; a layer whose predecessor was rvalue-reference-shaped (`&&`) is forced
to a reference prefix (`&` or `&mut `) even when it is syntactically a plain
pointer; each layer's own trailing `const` token is stripped before
classification; and a chain of zero layers yields exactly the resolved target
type name with no prefix. -/
theorem C6_pointer_chain_type_name :
    (∀ (n : PyStr) (u : TypeDesc),
      RefSynthetic_get_type_name (.base n u) = some (type_name_from_type u)) ∧
    (∀ (t : CType) (parts : List PyStr), refLoopParts false t = some parts →
      RefSynthetic_get_type_name t = some parts.flatten ∧
      parts.length = ctDepth t + 1 ∧
      parts.getLast? = some (ctResolvedTarget t) ∧
      ∀ p ∈ parts.dropLast, p ∈ prefixTokens) ∧
    (∀ (w : Bool) (n : PyStr) (p : CType) (parts : List PyStr),
      refLoopParts w (.ptr n p) = some parts → w = true →
      parts.head? = some "&".toList ∨ parts.head? = some "&mut ".toList) ∧
    (∀ (w : Bool) (n : PyStr) (p : CType), pyEndsWith n "const".toList = false →
      refLoopParts w (.ptr (n ++ "const".toList) p) = refLoopParts w (.ptr n p) ∧
      refLoopParts w (.ref (n ++ "const".toList) p) = refLoopParts w (.ref n p)) := by
  refine ⟨?_, ?_, ?_, ?_⟩
  · intro n u
    simp [RefSynthetic_get_type_name, refLoopParts]
  · intro t parts h
    obtain ⟨h1, h2, h3⟩ := refLoopParts_shape t false parts h
    refine ⟨?_, h1, h2, h3⟩
    unfold RefSynthetic_get_type_name
    rw [h]
    rfl
  · intro w n p parts h hw
    subst hw
    simp only [refLoopParts] at h
    cases hl : pyLast (pyRemoveSuffix n "const".toList) with
    | none => rw [hl] at h; exact absurd h (by simp)
    | some lastc =>
      rw [hl] at h
      cases hrec : refLoopParts (pyEndsWith (pyRemoveSuffix n "const".toList) "&&".toList) p with
      | none => rw [hrec] at h; exact absurd h (by simp)
      | some parts' =>
        rw [hrec] at h
        simp only [Option.map_some', Option.some_inj] at h
        subst h
        simp only [Bool.true_or, List.head?_cons]
        rcases layerToken_true p with h | h
        · exact Or.inl (by rw [h])
        · exact Or.inr (by rw [h])
  · intro w n p h
    constructor
    · simp only [refLoopParts, pyRemoveSuffix_append n "const".toList,
        pyRemoveSuffix_of_not_suffix n "const".toList h]
    · simp only [refLoopParts, pyRemoveSuffix_append n "const".toList,
        pyRemoveSuffix_of_not_suffix n "const".toList h]

/-- Witness for C6 on the chain from the source comment: `u8 *&&` decodes to
`&mut &mut u8`, with one prefix per layer; the inner plain-pointer layer is
forced to a reference by the preceding `&&` layer; adding a trailing `const`
to a layer's name leaves its decoding unchanged. -/
theorem C6_pointer_chain_witness :
    refLoopParts false (CType.ref "u8 *&&".toList (CType.ptr "u8 *".toList
        (CType.base "u8".toList ⟨"u8".toList, 0, 1⟩))) =
      some ["&mut ".toList, "&mut ".toList, "u8".toList] ∧
    (RefSynthetic_get_type_name (CType.ref "u8 *&&".toList (CType.ptr "u8 *".toList
        (CType.base "u8".toList ⟨"u8".toList, 0, 1⟩))) =
      some (["&mut ".toList, "&mut ".toList, "u8".toList] : List PyStr).flatten ∧
     (["&mut ".toList, "&mut ".toList, "u8".toList] : List PyStr).length =
       ctDepth (CType.ref "u8 *&&".toList (CType.ptr "u8 *".toList
         (CType.base "u8".toList ⟨"u8".toList, 0, 1⟩))) + 1 ∧
     (["&mut ".toList, "&mut ".toList, "u8".toList] : List PyStr).getLast? =
       some (ctResolvedTarget (CType.ref "u8 *&&".toList (CType.ptr "u8 *".toList
         (CType.base "u8".toList ⟨"u8".toList, 0, 1⟩)))) ∧
     ∀ p ∈ (["&mut ".toList, "&mut ".toList, "u8".toList] : List PyStr).dropLast,
       p ∈ prefixTokens) ∧
    (∀ parts, refLoopParts true (CType.ptr "u8 *".toList
        (CType.base "u8".toList ⟨"u8".toList, 0, 1⟩)) = some parts →
      parts.head? = some "&".toList ∨ parts.head? = some "&mut ".toList) ∧
    refLoopParts false (CType.ptr ("u8 *".toList ++ "const".toList)
        (CType.base "u8".toList ⟨"u8".toList, 0, 1⟩)) =
      refLoopParts false (CType.ptr "u8 *".toList
        (CType.base "u8".toList ⟨"u8".toList, 0, 1⟩)) :=
  ⟨by decide,
   C6_pointer_chain_type_name.2.1 _ _ (by decide),
   fun parts h => C6_pointer_chain_type_name.2.2.1 true "u8 *".toList _ parts h rfl,
   (C6_pointer_chain_type_name.2.2.2 false "u8 *".toList _ (by decide)).1⟩

/-! ### UTF-8 string summaries (`MSVCstrSummaryProvider` 567-583,
`StdStringSummaryProvider` 637-662)

`MemModel.read` models `SBProcess.ReadMemory(address, length, error)`:
`some bytes` when the range is readable, `none` when the read fails. -/

structure MemModel where
  read : Nat → Nat → Option (List Nat)

/-- The Unicode replacement character U+FFFD. -/
def replChar : Char := Char.ofNat 65533

/-- Continuation-byte test `0x80..0xBF`. -/
def isCont (b : Nat) : Bool := 128 ≤ b && b ≤ 191

/-- Allowed first continuation byte of a three-byte sequence (excludes
overlong encodings and surrogates). -/
def cont1ok3 (b b1 : Nat) : Bool :=
  if b == 224 then 160 ≤ b1 && b1 ≤ 191
  else if b == 237 then 128 ≤ b1 && b1 ≤ 159
  else isCont b1

/-- Allowed first continuation byte of a four-byte sequence. -/
def cont1ok4 (b b1 : Nat) : Bool :=
  if b == 240 then 144 ≤ b1 && b1 ≤ 191
  else if b == 244 then 128 ≤ b1 && b1 ≤ 143
  else isCont b1

/-- Model of Python `bytes.decode("utf8", "replace")`: a total decoder that
decodes valid UTF-8 sequences and substitutes U+FFFD for invalid bytes,
never failing. -/
def utf8DecodeReplace : List Nat → List Char
  | [] => []
  | b :: rest =>
    if b < 128 then Char.ofNat b :: utf8DecodeReplace rest
    else if 194 ≤ b && b ≤ 223 then
      match rest with
      | [] => [replChar]
      | b1 :: rest1 =>
        if isCont b1 then
          Char.ofNat ((b - 192) * 64 + (b1 - 128)) :: utf8DecodeReplace rest1
        else replChar :: utf8DecodeReplace (b1 :: rest1)
    else if 224 ≤ b && b ≤ 239 then
      match rest with
      | [] => [replChar]
      | b1 :: rest1 =>
        if cont1ok3 b b1 then
          match rest1 with
          | [] => [replChar]
          | b2 :: rest2 =>
            if isCont b2 then
              Char.ofNat ((b - 224) * 4096 + (b1 - 128) * 64 + (b2 - 128)) ::
                utf8DecodeReplace rest2
            else replChar :: utf8DecodeReplace (b2 :: rest2)
        else replChar :: utf8DecodeReplace (b1 :: rest1)
    else if 240 ≤ b && b ≤ 244 then
      match rest with
      | [] => [replChar]
      | b1 :: rest1 =>
        if cont1ok4 b b1 then
          match rest1 with
          | [] => [replChar]
          | b2 :: rest2 =>
            if isCont b2 then
              match rest2 with
              | [] => [replChar]
              | b3 :: rest3 =>
                if isCont b3 then
                  Char.ofNat ((b - 240) * 262144 + (b1 - 128) * 4096 +
                    (b2 - 128) * 64 + (b3 - 128)) :: utf8DecodeReplace rest3
                else replChar :: utf8DecodeReplace (b3 :: rest3)
            else replChar :: utf8DecodeReplace (b2 :: rest2)
        else replChar :: utf8DecodeReplace (b1 :: rest1)
    else replChar :: utf8DecodeReplace rest

/-- Length field of a borrowed `&str` value. -/
def strLen (valobj : SBV) : Nat :=
  optUint (getChildMemberWithName valobj "length".toList)

/-- Data pointer of a borrowed `&str` value. -/
def strPtr (valobj : SBV) : Nat :=
  optUint (getChildMemberWithName valobj "data_ptr".toList)

/-- Embedding of `MSVCstrSummaryProvider` (567-583): empty string for length
zero, decoded bytes on a successful read, a raised exception (`Except.error`)
on a failed read. -/
def MSVCstrSummaryProvider (valobj : SBV) (mem : MemModel) : Except PyStr PyStr :=
  if strLen valobj ≤ 0 then Except.ok []
  else
    match mem.read (strPtr valobj) (strLen valobj) with
    | some bytes => Except.ok (utf8DecodeReplace bytes)
    | none => Except.error "ReadMemory error".toList

/-- Length field of an owned `String` value (`vec.len`). -/
def stringLen (valobj : SBV) : Nat :=
  optUint (optMember (getChildMemberWithName valobj "vec".toList) "len".toList)

/-- Data pointer of an owned `String` value, through
`vec.buf.inner.ptr.pointer.pointer`. -/
def stringPtr (valobj : SBV) : Nat :=
  optUint (optMember (optMember (optMember (optMember
    (optMember (getChildMemberWithName valobj "vec".toList) "buf".toList)
      "inner".toList) "ptr".toList) "pointer".toList) "pointer".toList)

/-- Embedding of `StdStringSummaryProvider` (637-662). -/
def StdStringSummaryProvider (valobj : SBV) (mem : MemModel) : Except PyStr PyStr :=
  if stringLen valobj ≤ 0 then Except.ok []
  else
    match mem.read (stringPtr valobj) (stringLen valobj) with
    | some bytes => Except.ok (utf8DecodeReplace bytes)
    | none => Except.error "ReadMemory error".toList

/-- C7: both UTF-8 string summaries return the empty string at length zero;
when the byte range is readable they return the bytes decoded by the total
lossy UTF-8 decoder (so they never fail on invalid bytes — an isolated `0xFF`
decodes to the replacement character, as the last two conjuncts evaluate);
when the read fails they raise an explicit error rather than returning empty
data. -/
theorem C7_utf8_summary_error_handling :
    (∀ (valobj : SBV) (mem : MemModel),
      (strLen valobj = 0 → MSVCstrSummaryProvider valobj mem = Except.ok []) ∧
      (∀ bytes, 0 < strLen valobj →
        mem.read (strPtr valobj) (strLen valobj) = some bytes →
        MSVCstrSummaryProvider valobj mem = Except.ok (utf8DecodeReplace bytes)) ∧
      (0 < strLen valobj → mem.read (strPtr valobj) (strLen valobj) = none →
        MSVCstrSummaryProvider valobj mem = Except.error "ReadMemory error".toList)) ∧
    (∀ (valobj : SBV) (mem : MemModel),
      (stringLen valobj = 0 → StdStringSummaryProvider valobj mem = Except.ok []) ∧
      (∀ bytes, 0 < stringLen valobj →
        mem.read (stringPtr valobj) (stringLen valobj) = some bytes →
        StdStringSummaryProvider valobj mem = Except.ok (utf8DecodeReplace bytes)) ∧
      (0 < stringLen valobj → mem.read (stringPtr valobj) (stringLen valobj) = none →
        StdStringSummaryProvider valobj mem = Except.error "ReadMemory error".toList)) ∧
    utf8DecodeReplace [255] = [replChar] ∧
    utf8DecodeReplace [104, 105] = "hi".toList := by
  refine ⟨?_, ?_, by decide, by decide⟩
  · intro valobj mem
    refine ⟨?_, ?_, ?_⟩
    · intro h0
      unfold MSVCstrSummaryProvider
      rw [if_pos (by omega)]
    · intro bytes hpos hread
      unfold MSVCstrSummaryProvider
      rw [if_neg (by omega), hread]
    · intro hpos hread
      unfold MSVCstrSummaryProvider
      rw [if_neg (by omega), hread]
  · intro valobj mem
    refine ⟨?_, ?_, ?_⟩
    · intro h0
      unfold StdStringSummaryProvider
      rw [if_pos (by omega)]
    · intro bytes hpos hread
      unfold StdStringSummaryProvider
      rw [if_neg (by omega), hread]
    · intro hpos hread
      unfold StdStringSummaryProvider
      rw [if_neg (by omega), hread]

/-- Witness for C7: a concrete `&str` of length 2 over readable bytes `hi`
summarizes to `"hi"`; the same value over unreadable memory raises; a
zero-length `String` summarizes to the empty string. -/
theorem C7_utf8_summary_witness :
    MSVCstrSummaryProvider
      (.mk "s".toList "&str".toList [] 0 true none
        [.mk "data_ptr".toList "u8 *".toList [] 100 true none [],
         .mk "length".toList "usize".toList [] 2 true none []])
      ⟨fun a l => if a == 100 && l == 2 then some [104, 105] else none⟩ =
      Except.ok "hi".toList ∧
    MSVCstrSummaryProvider
      (.mk "s".toList "&str".toList [] 0 true none
        [.mk "data_ptr".toList "u8 *".toList [] 100 true none [],
         .mk "length".toList "usize".toList [] 2 true none []])
      ⟨fun _ _ => none⟩ =
      Except.error "ReadMemory error".toList ∧
    StdStringSummaryProvider
      (.mk "s".toList "String".toList [] 0 true none
        [.mk "vec".toList "Vec<u8,alloc::alloc::Global>".toList [] 0 true none
          [.mk "len".toList "usize".toList [] 0 true none []]])
      ⟨fun _ _ => none⟩ =
      Except.ok [] := by
  refine ⟨?_, ?_, ?_⟩
  · rw [(C7_utf8_summary_error_handling.1 _ _).2.1 [104, 105] (by decide) (by decide)]
    rfl
  · exact (C7_utf8_summary_error_handling.1 _ _).2.2 (by decide) rfl
  · exact (C7_utf8_summary_error_handling.2.1 _ _).1 (by decide)

/-! ### The MSVC enum decoder (`MSVCEnumSyntheticProvider` 671-749,
`MSVCEnumSummaryProvider` 776-796)

In `EnumState`, `tag = none` models the `tag` attribute never being assigned
(the niche path of `update` returns before the assignment); in `variant` and
the summary helpers, `none` models an *invalid* LLDB value as elsewhere. -/

inductive VariantType : Type where
  | DISCRIMINANT
  | TUPLE
  | STRUCT
deriving DecidableEq

/-- Niche detection of `MSVCEnumSyntheticProvider.__init__` (685-692): some
child (other than the last) has a type named `…Variant<i>` without a valid
`DISCR_EXACT` static field. -/
def computeIsNiche (valobj : SBV) : Bool :=
  (List.range ((sbChildren valobj).length - 1)).any (fun i =>
    match (sbChildren valobj).get? i with
    | some c => pyEndsWith (sbTypeName c) ("Variant".toList ++ decimalRepr i) && !(sbDiscrExact c)
    | none => false)

/-- Payload of the active variant: child `variant<tag>`, then its `value`
child (lldb_providers.py 704-709). -/
def enumVariantPayload (valobj : SBV) (t : Nat) : Option SBV :=
  optMember (getChildMemberWithName valobj ("variant".toList ++ decimalRepr t)) "value".toList

/-- Best-effort variant name (lldb_providers.py 717-727): member `tag` of the
enumeration behind the variant type's `NAME` static field; every failuremode
(`try/except`) yields the empty name. -/
def enumVariantName (valobj : SBV) (t : Nat) : PyStr :=
  match getChildMemberWithName valobj ("variant".toList ++ decimalRepr t) with
  | some var =>
    match sbEnumNames var with
    | some names => (names.get? t).getD []
    | none => []
  | none => []

/-- Payload-shape classification (lldb_providers.py 710-715). -/
def classifyPayload (variant : Option SBV) : VariantType :=
  if optNumChildren variant = 0 then VariantType.DISCRIMINANT
  else
    match optChildAt variant 0 with
    | some c => if sbName c == "__0".toList then VariantType.TUPLE else VariantType.STRUCT
    | none => VariantType.STRUCT

/-- State after `MSVCEnumSyntheticProvider.__init__` + `update` (696-727). -/
structure EnumState where
  is_niche : Bool
  tag : Option Nat
  variant : Option SBV
  variant_type : Option VariantType
  variant_name : Option PyStr

/-- Embedding of `MSVCEnumSyntheticProvider` construction: niche detection,
then `update`.  On the niche path `update` returns right after setting
`variant`, leaving `tag`, `variant_type` and `variant_name` unassigned. -/
def MSVCEnum_update (valobj : SBV) : EnumState :=
  if computeIsNiche valobj then ⟨true, none, some valobj, none, none⟩
  else
    ⟨false, some (optUint (getChildMemberWithName valobj "tag".toList)),
     enumVariantPayload valobj (optUint (getChildMemberWithName valobj "tag".toList)),
     some (classifyPayload (enumVariantPayload valobj
       (optUint (getChildMemberWithName valobj "tag".toList)))),
     some (enumVariantName valobj (optUint (getChildMemberWithName valobj "tag".toList)))⟩

/-- Children of a possibly-invalid value. -/
def optChildren (o : Option SBV) : List SBV :=
  match o with
  | some v => sbChildren v
  | none => []

/-- Model of LLDB's default `str(SBValue)` rendering of an aggregate with
scalar fields: `(Type) name = \x7b` then one `  field = value` line per child,
then `\x7d`. -/
def lldbDescription (v : SBV) : PyStr :=
  "(".toList ++ sbTypeName v ++ ") ".toList ++ sbName v ++ " = ".toList ++
  "\x7b".toList ++ "\n".toList ++
  List.intercalate "\n".toList ((sbChildren v).map (fun c =>
    "  ".toList ++ sbName c ++ " = ".toList ++ sbValueStr c)) ++
  "\n".toList ++ "\x7d".toList

/-- Default rendering of a possibly-invalid value (`str` of an invalid
`SBValue` is `"No value"`). -/
def lldbDescriptionOpt (o : Option SBV) : PyStr :=
  match o with
  | some v => lldbDescription v
  | none => "No value".toList

/-- Split on every occurrence of a character, keeping empty segments. -/
def splitOnChar : PyStr → Char → List PyStr
  | [], _ => [[]]
  | c :: rest, ch =>
    if c == ch then [] :: splitOnChar rest ch
    else
      match splitOnChar rest ch with
      | s :: ss => (c :: s) :: ss
      | [] => [[c]]

/-- Python `s.splitlines()` for strings whose only line break is `\n`: every
`\n` separates lines, one trailing empty segment is dropped, the empty string
has no lines. -/
def pySplitlines (l : PyStr) : List PyStr :=
  if l.isEmpty then []
  else
    if (splitOnChar l '\n').getLast? = some [] then (splitOnChar l '\n').dropLast
    else splitOnChar l '\n'

/-- Lines of the payload description after the first `"= "`, with the brace
lines dropped and each line stripped (lldb_providers.py 785-788). -/
def structVarsRaw (after : PyStr) : List PyStr :=
  ((pySplitlines after).filter
    (fun x => !(x == "\x7b".toList) && !(x == "\x7d".toList))).map pyStripWs

/-- Leading-parenthesis strip of `vars[0]` (789-790); `none` models the
`IndexError` on an empty list or empty first element. -/
def adjustFirst : List PyStr → Option (List PyStr)
  | [] => none
  | v :: rest =>
    match v with
    | [] => none
    | c :: t => some ((if c == '(' then t else c :: t) :: rest)

/-- Trailing-parenthesis strip of `vars[-1]` (791-792). -/
def adjustLast (vars : List PyStr) : Option (List PyStr) :=
  match vars.getLast? with
  | none => none
  | some v =>
    match pyLast v with
    | none => none
    | some c => some (vars.dropLast ++ [if c == ')' then pyDropLast1 v else v])

/-- Embedding of `MSVCEnumSummaryProvider` (776-796).  `Except.error` models a
Python exception escaping the provider (`AttributeError` on the unassigned
`tag` attribute in the niche path, `IndexError` from the list accesses of the
struct branch). -/
def MSVCEnumSummaryProvider (valobj : SBV) : Except PyStr PyStr :=
  if (MSVCEnum_update valobj).is_niche then
    match (MSVCEnum_update valobj).tag with
    | none => Except.error "AttributeError: tag".toList
    | some t => Except.ok (decimalRepr t)
  else
    match (MSVCEnum_update valobj).variant_type with
    | some VariantType.TUPLE =>
      Except.ok (((MSVCEnum_update valobj).variant_name.getD []) ++
        TupleSummaryProvider ((optChildren (MSVCEnum_update valobj).variant).map sbValueStr))
    | some VariantType.STRUCT =>
      match pySplitOnce (lldbDescriptionOpt (MSVCEnum_update valobj).variant) ('=' :: [' ']) with
      | none => Except.error "IndexError".toList
      | some p =>
        match (adjustFirst (structVarsRaw p.2)).bind adjustLast with
        | none => Except.error "IndexError".toList
        | some vars =>
          Except.ok (((MSVCEnum_update valobj).variant_name.getD []) ++ "\x7b".toList ++
            List.intercalate ", ".toList vars ++ "\x7d".toList)
    | _ => Except.ok ((MSVCEnum_update valobj).variant_name.getD [])

theorem pySplitOnce_eqsep (post : PyStr) : ∀ pre : PyStr,
    pySplitOnce pre ('=' :: [' ']) = none →
    pySplitOnce (pre ++ '=' :: ' ' :: post) ('=' :: [' ']) = some (pre, post) := by
  intro pre
  induction pre with
  | nil =>
    intro _
    unfold pySplitOnce
    simp [pyStartsWith]
  | cons a pre ih =>
    intro h
    have hparts : pyStartsWith (a :: pre) ('=' :: [' ']) = false ∧
        pySplitOnce pre ('=' :: [' ']) = none := by
      unfold pySplitOnce at h
      cases hs : pyStartsWith (a :: pre) ('=' :: [' ']) with
      | true => rw [hs] at h; simp at h
      | false =>
        rw [hs] at h
        refine ⟨rfl, ?_⟩
        cases hp : pySplitOnce pre ('=' :: [' ']) with
        | none => rfl
        | some q => rw [hp] at h; simp at h
    have hs2 : pyStartsWith (a :: (pre ++ '=' :: ' ' :: post)) ('=' :: [' ']) = false := by
      cases pre with
      | nil =>
        simp [pyStartsWith]
      | cons b pre2 =>
        have := hparts.1
        simpa [pyStartsWith] using this
    rw [List.cons_append]
    unfold pySplitOnce
    rw [hs2]
    simp only [Bool.false_eq_true, if_false]
    rw [ih hparts.2]

theorem splitOnChar_no_mem (ch : Char) : ∀ l : PyStr, ch ∉ l →
    splitOnChar l ch = [l] := by
  intro l
  induction l with
  | nil => intro _; rfl
  | cons a rest ih =>
    intro h
    simp only [List.mem_cons, not_or] at h
    have ha : (a == ch) = false := beq_eq_false_iff_ne.mpr (Ne.symm h.1)
    rw [splitOnChar]
    rw [ha]
    simp only [Bool.false_eq_true, if_false]
    rw [ih h.2]

theorem splitOnChar_append (ch : Char) (rest : PyStr) : ∀ l1 : PyStr, ch ∉ l1 →
    splitOnChar (l1 ++ ch :: rest) ch = l1 :: splitOnChar rest ch := by
  intro l1
  induction l1 with
  | nil =>
    intro _
    rw [List.nil_append]
    rw [splitOnChar]
    simp
  | cons a l1 ih =>
    intro h
    simp only [List.mem_cons, not_or] at h
    have ha : (a == ch) = false := beq_eq_false_iff_ne.mpr (Ne.symm h.1)
    rw [List.cons_append]
    rw [splitOnChar]
    rw [ha]
    simp only [Bool.false_eq_true, if_false]
    rw [ih h.2]

theorem pyStripWs_cons_space (l : PyStr) : pyStripWs (' ' :: l) = pyStripWs l := by
  unfold pyStripWs
  rw [List.dropWhile_cons]
  simp [pyIsSpace]

theorem pyStartsWith_cons_single (c p : Char) (t : PyStr) :
    pyStartsWith (c :: t) [p] = (c == p) := by
  simp [pyStartsWith]

theorem pyEndsWith_append_single (w : PyStr) (lc c : Char) :
    pyEndsWith (w ++ [lc]) [c] = (lc == c) := by
  unfold pyEndsWith
  rw [List.length_append]
  simp only [List.length_cons, List.length_nil, Nat.add_sub_cancel]
  rw [List.drop_left]
  simp

theorem intercalate_pair (s a b : PyStr) :
    List.intercalate s [a, b] = a ++ s ++ b := by
  simp [List.intercalate, List.intersperse]

theorem pyDropLast2_append_sep (l : PyStr) : pyDropLast2 (l ++ sepCS) = l := by
  unfold pyDropLast2 sepCS
  rw [List.length_append]
  simp only [List.length_cons, List.length_nil, Nat.add_sub_cancel]
  exact List.take_left l _

theorem TupleSummary_two (v0 v1 : PyStr) (h : v0.length ≤ 29) :
    TupleSummaryProvider [v0, v1] =
      "(".toList ++ v0 ++ ", ".toList ++ v1 ++ ")".toList := by
  unfold TupleSummaryProvider sequence_formatter
  rw [show seqLoop "(".toList [v0, v1] = ((("(".toList ++ v0 ++ sepCS) ++ v1 ++ sepCS), false) from by
    unfold seqLoop
    rw [if_neg (by simp)]
    unfold seqLoop
    rw [if_neg (by simp [sepCS]; omega)]
    rfl]
  simp only
  rw [pyDropLast2_append_sep]
  simp [sepCS, List.append_assoc]

theorem MSVCEnum_update_tagged (valobj tagc var payload : SBV) (t : Nat)
    (h_niche : computeIsNiche valobj = false)
    (h_tag : getChildMemberWithName valobj "tag".toList = some tagc)
    (h_t : sbUint tagc = t)
    (h_var : getChildMemberWithName valobj ("variant".toList ++ decimalRepr t) = some var)
    (h_val : getChildMemberWithName var "value".toList = some payload) :
    MSVCEnum_update valobj =
      ⟨false, some t, some payload, some (classifyPayload (some payload)),
       some (enumVariantName valobj t)⟩ := by
  have htag2 : optUint (getChildMemberWithName valobj "tag".toList) = t := by
    rw [h_tag]; exact h_t
  have hpay : enumVariantPayload valobj t = some payload := by
    unfold enumVariantPayload
    rw [h_var]
    unfold optMember
    simpa using h_val
  unfold MSVCEnum_update
  rw [h_niche]
  simp only [Bool.false_eq_true, if_false, htag2, hpay]

theorem beq_false_of_length_ne {l1 l2 : PyStr} (h : l1.length ≠ l2.length) :
    (l1 == l2) = false :=
  beq_eq_false_iff_ne.mpr (fun he => h (by rw [he]))

theorem structVarsRaw_two (a0 x0 a1 x1 : PyStr)
    (hstrip0 : pyStripWs (a0 ++ " = ".toList ++ x0) = a0 ++ " = ".toList ++ x0)
    (hstrip1 : pyStripWs (a1 ++ " = ".toList ++ x1) = a1 ++ " = ".toList ++ x1)
    (hnlA0 : '\n' ∉ a0) (hnlX0 : '\n' ∉ x0) (hnlA1 : '\n' ∉ a1) (hnlX1 : '\n' ∉ x1) :
    structVarsRaw ("\x7b".toList ++ '\n' ::
        (("  ".toList ++ a0 ++ " = ".toList ++ x0) ++ '\n' ::
          (("  ".toList ++ a1 ++ " = ".toList ++ x1) ++ '\n' :: "\x7d".toList))) =
      [a0 ++ " = ".toList ++ x0, a1 ++ " = ".toList ++ x1] := by
  have hl0 : '\n' ∉ ("  ".toList ++ a0 ++ " = ".toList ++ x0) := by
    simp only [List.append_assoc, List.mem_append, not_or]
    exact ⟨by decide, hnlA0, by decide, hnlX0⟩
  have hl1 : '\n' ∉ ("  ".toList ++ a1 ++ " = ".toList ++ x1) := by
    simp only [List.append_assoc, List.mem_append, not_or]
    exact ⟨by decide, hnlA1, by decide, hnlX1⟩
  have hb0a : (("  ".toList ++ a0 ++ " = ".toList ++ x0 : PyStr) == "\x7b".toList) = false := by
    apply beq_false_of_length_ne
    simp only [List.length_append]
    simp
    omega
  have hb0b : (("  ".toList ++ a0 ++ " = ".toList ++ x0 : PyStr) == "\x7d".toList) = false := by
    apply beq_false_of_length_ne
    simp only [List.length_append]
    simp
    omega
  have hb1a : (("  ".toList ++ a1 ++ " = ".toList ++ x1 : PyStr) == "\x7b".toList) = false := by
    apply beq_false_of_length_ne
    simp only [List.length_append]
    simp
    omega
  have hb1b : (("  ".toList ++ a1 ++ " = ".toList ++ x1 : PyStr) == "\x7d".toList) = false := by
    apply beq_false_of_length_ne
    simp only [List.length_append]
    simp
    omega
  unfold structVarsRaw pySplitlines
  rw [splitOnChar_append '\n' _ "\x7b".toList (by decide),
      splitOnChar_append '\n' _ _ hl0,
      splitOnChar_append '\n' _ _ hl1,
      splitOnChar_no_mem '\n' "\x7d".toList (by decide)]
  rw [if_neg (by simp)]
  rw [if_neg (by simp)]
  rw [show List.filter
        (fun x => !(x == "\x7b".toList) && !(x == "\x7d".toList))
        ["\x7b".toList, "  ".toList ++ a0 ++ " = ".toList ++ x0,
         "  ".toList ++ a1 ++ " = ".toList ++ x1, "\x7d".toList] =
      ["  ".toList ++ a0 ++ " = ".toList ++ x0,
       "  ".toList ++ a1 ++ " = ".toList ++ x1] from by
    simp [List.filter_cons, hb0a, hb0b, hb1a, hb1b]]
  rw [List.map_cons, List.map_cons, List.map_nil]
  rw [show "  ".toList ++ a0 ++ " = ".toList ++ x0 =
      ' ' :: ' ' :: (a0 ++ " = ".toList ++ x0) from rfl]
  rw [show "  ".toList ++ a1 ++ " = ".toList ++ x1 =
      ' ' :: ' ' :: (a1 ++ " = ".toList ++ x1) from rfl]
  rw [pyStripWs_cons_space, pyStripWs_cons_space, pyStripWs_cons_space,
      pyStripWs_cons_space, hstrip0, hstrip1]

theorem adjustFirst_two (core0 core1 : PyStr) (hne : core0 ≠ [])
    (hpar : pyStartsWith core0 "(".toList = false) :
    adjustFirst [core0, core1] = some [core0, core1] := by
  cases hc : core0 with
  | nil => exact absurd hc hne
  | cons c t =>
    have hcc : (c == '(') = false := by
      rw [hc] at hpar
      rw [show ("(".toList : PyStr) = ['('] from rfl, pyStartsWith_cons_single] at hpar
      exact hpar
    simp [adjustFirst, hcc]

theorem adjustLast_two (core0 core1 : PyStr) (hne : core1 ≠ [])
    (hpar : pyEndsWith core1 ")".toList = false) :
    adjustLast [core0, core1] = some [core0, core1] := by
  have hlc : (core1.getLast hne == ')') = false := by
    have h2 := pyEndsWith_append_single core1.dropLast (core1.getLast hne) ')'
    rw [List.dropLast_append_getLast hne] at h2
    rw [← h2]
    exact hpar
  unfold adjustLast
  simp only [show ([core0, core1] : List PyStr).getLast? = some core1 from by simp,
             show pyLast core1 = some (core1.getLast hne) from List.getLast?_eq_getLast core1 hne,
             hlc]
  simp

/-- C1 (amended): for a tagged-layout sum-type value the decoder reads the
`tag` field as an unsigned integer `t`, selects the child `variant<t>`,
descends into its `value` child, and classifies the payload as
discriminant-only (zero children), positional (first child named `__0`) or
named (otherwise); the one-line summary renders the bare variant name for a
discriminant-only payload, `VariantName(v0, v1)` for a short two-field
positional payload, and `VariantName{a = x, b = y}` for a named payload —
with the name/value pairs joined by `" = "` as produced by the host's default
value rendering, not by `": "`. -/
theorem C1_tagged_enum_decode_and_summary
    (valobj tagc var payload : SBV) (t : Nat)
    (h_niche : computeIsNiche valobj = false)
    (h_tag : getChildMemberWithName valobj "tag".toList = some tagc)
    (h_t : sbUint tagc = t)
    (h_var : getChildMemberWithName valobj ("variant".toList ++ decimalRepr t) = some var)
    (h_val : getChildMemberWithName var "value".toList = some payload) :
    ((MSVCEnum_update valobj).tag = some t ∧
     (MSVCEnum_update valobj).variant = some payload ∧
     (MSVCEnum_update valobj).variant_name = some (enumVariantName valobj t)) ∧
    ((sbChildren payload = [] →
       (MSVCEnum_update valobj).variant_type = some VariantType.DISCRIMINANT) ∧
     (∀ c cs, sbChildren payload = c :: cs → sbName c = "__0".toList →
       (MSVCEnum_update valobj).variant_type = some VariantType.TUPLE) ∧
     (∀ c cs, sbChildren payload = c :: cs → sbName c ≠ "__0".toList →
       (MSVCEnum_update valobj).variant_type = some VariantType.STRUCT)) ∧
    (sbChildren payload = [] →
      MSVCEnumSummaryProvider valobj = Except.ok (enumVariantName valobj t)) ∧
    (∀ c0 c1, sbChildren payload = [c0, c1] → sbName c0 = "__0".toList →
      (sbValueStr c0).length ≤ 29 →
      MSVCEnumSummaryProvider valobj = Except.ok (enumVariantName valobj t ++
        "(".toList ++ sbValueStr c0 ++ ", ".toList ++ sbValueStr c1 ++ ")".toList)) ∧
    (∀ c0 c1, sbChildren payload = [c0, c1] → sbName c0 ≠ "__0".toList →
      pySplitOnce ("(".toList ++ sbTypeName payload ++ ") value ".toList) ('=' :: [' ']) = none →
      pyStripWs (sbName c0 ++ " = ".toList ++ sbValueStr c0) =
        sbName c0 ++ " = ".toList ++ sbValueStr c0 →
      pyStripWs (sbName c1 ++ " = ".toList ++ sbValueStr c1) =
        sbName c1 ++ " = ".toList ++ sbValueStr c1 →
      '\n' ∉ sbName c0 → '\n' ∉ sbValueStr c0 → '\n' ∉ sbName c1 → '\n' ∉ sbValueStr c1 →
      pyStartsWith (sbName c0 ++ " = ".toList ++ sbValueStr c0) "(".toList = false →
      pyEndsWith (sbName c1 ++ " = ".toList ++ sbValueStr c1) ")".toList = false →
      MSVCEnumSummaryProvider valobj = Except.ok (enumVariantName valobj t ++
        "\x7b".toList ++ (sbName c0 ++ " = ".toList ++ sbValueStr c0) ++ ", ".toList ++
        (sbName c1 ++ " = ".toList ++ sbValueStr c1) ++ "\x7d".toList)) := by
  have hupd := MSVCEnum_update_tagged valobj tagc var payload t h_niche h_tag h_t h_var h_val
  refine ⟨⟨by rw [hupd], by rw [hupd], by rw [hupd]⟩, ⟨?_, ?_, ?_⟩, ?_, ?_, ?_⟩
  · intro h
    rw [hupd]
    simp [classifyPayload, optNumChildren, h]
  · intro c cs h hname
    rw [hupd]
    simp [classifyPayload, optNumChildren, optChildAt, h, hname]
  · intro c cs h hname
    rw [hupd]
    simp [classifyPayload, optNumChildren, optChildAt, h, beq_eq_false_iff_ne.mpr hname]
    exact hname
  · intro h
    have hclass : classifyPayload (some payload) = VariantType.DISCRIMINANT := by
      simp [classifyPayload, optNumChildren, h]
    simp [MSVCEnumSummaryProvider, hupd, hclass]
  · intro c0 c1 h hname hlen
    have hclass : classifyPayload (some payload) = VariantType.TUPLE := by
      simp [classifyPayload, optNumChildren, optChildAt, h, hname]
    simp only [MSVCEnumSummaryProvider, hupd, hclass]
    simp only [optChildren, h, List.map_cons, List.map_nil]
    rw [TupleSummary_two (sbValueStr c0) (sbValueStr c1) hlen]
    simp [List.append_assoc]
  · intro c0 c1 h hname hT hstrip0 hstrip1 hnlA0 hnlX0 hnlA1 hnlX1 hpar0 hpar1
    have hclass : classifyPayload (some payload) = VariantType.STRUCT := by
      simp [classifyPayload, optNumChildren, optChildAt, h, beq_eq_false_iff_ne.mpr hname]
      exact hname
    have hv : (sbChildren var).find? (fun c => sbName c == "value".toList) = some payload := h_val
    have hpname : sbName payload = "value".toList := by
      have := List.find?_some hv
      exact beq_iff_eq.mp this
    have hdesc : lldbDescription payload =
        ("(".toList ++ sbTypeName payload ++ ") value ".toList) ++ '=' :: ' ' ::
          ("\x7b".toList ++ '\n' ::
            (("  ".toList ++ sbName c0 ++ " = ".toList ++ sbValueStr c0) ++ '\n' ::
              (("  ".toList ++ sbName c1 ++ " = ".toList ++ sbValueStr c1) ++ '\n' ::
                "\x7d".toList))) := by
      unfold lldbDescription
      rw [hpname, h]
      rw [List.map_cons, List.map_cons, List.map_nil, intercalate_pair]
      simp [List.append_assoc]
    have hsplit : pySplitOnce (lldbDescription payload) ('=' :: [' ']) =
        some (("(".toList ++ sbTypeName payload ++ ") value ".toList),
          ("\x7b".toList ++ '\n' ::
            (("  ".toList ++ sbName c0 ++ " = ".toList ++ sbValueStr c0) ++ '\n' ::
              (("  ".toList ++ sbName c1 ++ " = ".toList ++ sbValueStr c1) ++ '\n' ::
                "\x7d".toList)))) := by
      rw [hdesc]
      exact pySplitOnce_eqsep _ _ hT
    have hvars := structVarsRaw_two (sbName c0) (sbValueStr c0) (sbName c1) (sbValueStr c1)
      hstrip0 hstrip1 hnlA0 hnlX0 hnlA1 hnlX1
    have hcore0ne : (sbName c0 ++ " = ".toList ++ sbValueStr c0 : PyStr) ≠ [] := by
      intro he
      have hm : '=' ∈ (sbName c0 ++ " = ".toList ++ sbValueStr c0 : PyStr) :=
        List.mem_append.mpr (Or.inl (List.mem_append.mpr (Or.inr (by decide))))
      rw [he] at hm
      exact absurd hm (List.not_mem_nil _)
    have hcore1ne : (sbName c1 ++ " = ".toList ++ sbValueStr c1 : PyStr) ≠ [] := by
      intro he
      have hm : '=' ∈ (sbName c1 ++ " = ".toList ++ sbValueStr c1 : PyStr) :=
        List.mem_append.mpr (Or.inl (List.mem_append.mpr (Or.inr (by decide))))
      rw [he] at hm
      exact absurd hm (List.not_mem_nil _)
    have hadj : (adjustFirst (structVarsRaw
        ("\x7b".toList ++ '\n' ::
          (("  ".toList ++ sbName c0 ++ " = ".toList ++ sbValueStr c0) ++ '\n' ::
            (("  ".toList ++ sbName c1 ++ " = ".toList ++ sbValueStr c1) ++ '\n' ::
              "\x7d".toList))))).bind adjustLast =
        some [sbName c0 ++ " = ".toList ++ sbValueStr c0,
              sbName c1 ++ " = ".toList ++ sbValueStr c1] := by
      rw [hvars, adjustFirst_two _ _ hcore0ne hpar0]
      exact adjustLast_two _ _ hcore1ne hpar1
    simp only [MSVCEnumSummaryProvider, hupd, hclass, lldbDescriptionOpt]
    simp only [hsplit]
    simp only [hadj]
    rw [intercalate_pair]
    simp [List.append_assoc]

/-- Concrete tagged-layout enum value with tag 1 and a named two-field payload
`a = 1, b = 2`; variant names come from the `NAME` static-field enumeration. -/
def enumExampleStruct : SBV :=
  .mk "e".toList "enum2$<E>".toList [] 0 true none
    [.mk "tag".toList "u64".toList [] 1 true none [],
     .mk "variant1".toList "V1".toList [] 0 true (some ["A".toList, "B".toList])
       [.mk "value".toList "payload".toList [] 0 true none
         [.mk "a".toList "i32".toList "1".toList 1 true none [],
          .mk "b".toList "i32".toList "2".toList 2 true none []]]]

/-- Concrete tagged-layout enum value with tag 0 and a positional two-field
payload `(7, 9)`. -/
def enumExampleTuple : SBV :=
  .mk "e".toList "enum2$<E>".toList [] 0 true none
    [.mk "tag".toList "u64".toList [] 0 true none [],
     .mk "variant0".toList "V0".toList [] 0 true (some ["A".toList, "B".toList])
       [.mk "value".toList "payload".toList [] 0 true none
         [.mk "__0".toList "i32".toList "7".toList 7 true none [],
          .mk "__1".toList "i32".toList "9".toList 9 true none []]]]

/-- C1 counterexample: on a tagged-layout value with named payload
`a = 1, b = 2` the summary joins each field as `name = value` (the host's
default rendering), producing `B{a = 1, b = 2}` — not the claimed
`VariantName{a: 1, b: 2}` form with colons. -/
theorem C1_counterexample :
    MSVCEnumSummaryProvider enumExampleStruct =
      Except.ok "B\x7ba = 1, b = 2\x7d".toList ∧
    "B\x7ba = 1, b = 2\x7d".toList ≠ "B\x7ba: 1, b: 2\x7d".toList :=
  ⟨rfl, by decide⟩

/-- Witness for C1 (amended): the named-payload example renders
`B{a = 1, b = 2}` and the positional example renders `A(7, 9)`, each through
the amended theorem with all its hypotheses discharged concretely. -/
theorem C1_tagged_enum_witness :
    MSVCEnumSummaryProvider enumExampleStruct =
      Except.ok "B\x7ba = 1, b = 2\x7d".toList ∧
    MSVCEnumSummaryProvider enumExampleTuple = Except.ok "A(7, 9)".toList := by
  constructor
  · rw [(C1_tagged_enum_decode_and_summary enumExampleStruct _ _ _ 1
        (by decide) rfl rfl rfl rfl).2.2.2.2 _ _ rfl (by decide) (by decide)
        (by decide) (by decide) (by decide) (by decide) (by decide) (by decide)
        (by decide) (by decide)]
    rfl
  · rw [(C1_tagged_enum_decode_and_summary enumExampleTuple _ _ _ 0
        (by decide) rfl rfl rfl rfl).2.2.2.1 _ _ rfl rfl (by decide)]
    rfl

/-- C5: for every value detected as niche layout, the decoder takes the value
itself as the active variant with no further interpretation; but the one-line
summary then reads the `tag` attribute, which the niche path of `update`
returns without ever assigning, so the summary raises an `AttributeError`
instead of rendering the value's own default rendering. -/
theorem C5_niche_decoder_and_summary (valobj : SBV)
    (h : computeIsNiche valobj = true) :
    (MSVCEnum_update valobj).is_niche = true ∧
    (MSVCEnum_update valobj).variant = some valobj ∧
    (MSVCEnum_update valobj).tag = none ∧
    MSVCEnumSummaryProvider valobj = Except.error "AttributeError: tag".toList := by
  have hupd : MSVCEnum_update valobj = ⟨true, none, some valobj, none, none⟩ := by
    unfold MSVCEnum_update
    rw [h]
    simp
  refine ⟨by rw [hupd], by rw [hupd], by rw [hupd], ?_⟩
  simp [MSVCEnumSummaryProvider, hupd]

/-- Witness for C5 on a concrete niche-detected value: child 0's type is named
`SomeVariant0` and lacks a valid `DISCR_EXACT` static field. -/
theorem C5_niche_witness :
    computeIsNiche (.mk "e".toList "enum2$<E>".toList [] 0 true none
      [.mk "x".toList "SomeVariant0".toList [] 0 false none [],
       .mk "y".toList "u64".toList [] 0 true none []]) = true ∧
    ((MSVCEnum_update (.mk "e".toList "enum2$<E>".toList [] 0 true none
      [.mk "x".toList "SomeVariant0".toList [] 0 false none [],
       .mk "y".toList "u64".toList [] 0 true none []])).is_niche = true ∧
     (MSVCEnum_update (.mk "e".toList "enum2$<E>".toList [] 0 true none
      [.mk "x".toList "SomeVariant0".toList [] 0 false none [],
       .mk "y".toList "u64".toList [] 0 true none []])).variant =
       some (.mk "e".toList "enum2$<E>".toList [] 0 true none
      [.mk "x".toList "SomeVariant0".toList [] 0 false none [],
       .mk "y".toList "u64".toList [] 0 true none []]) ∧
     (MSVCEnum_update (.mk "e".toList "enum2$<E>".toList [] 0 true none
      [.mk "x".toList "SomeVariant0".toList [] 0 false none [],
       .mk "y".toList "u64".toList [] 0 true none []])).tag = none ∧
     MSVCEnumSummaryProvider (.mk "e".toList "enum2$<E>".toList [] 0 true none
      [.mk "x".toList "SomeVariant0".toList [] 0 false none [],
       .mk "y".toList "u64".toList [] 0 true none []]) =
       Except.error "AttributeError: tag".toList) :=
  ⟨by decide, C5_niche_decoder_and_summary _ (by decide)⟩
